import Mathlib

/-!
Verification of the bunnystream-go client SDK.

Go strings are byte slices, so every Go string is modelled as a `List Nat`
of byte values.  Pure Go functions become Lean functions; methods whose only
mutable footprint is the builder/request pair become explicit state-passing
functions on that pair.  `time.Now()`-derived expiry values are modelled as
explicit parameters.
-/

set_option maxRecDepth 8192

namespace BunnyStream

/-- Go strings are byte slices; we model them as lists of byte values. -/
abbrev GoStr := List Nat

/-- Byte values of an ASCII string literal (used to transcribe the Go
string literals appearing in the source). -/
def ascii (s : String) : GoStr := s.data.map Char.toNat

/-- `strings.Join` / query-string joining with a single separator byte. -/
def joinBytes (sep : Nat) : List GoStr → GoStr
  | [] => []
  | [p] => p
  | p :: q :: t => p ++ sep :: joinBytes sep (q :: t)

/-- Splitting a byte string on a separator byte (the iterated
`strings.Cut(query, "&")` loop of `net/url.parseQuery`). -/
def splitOnByte (sep : Nat) : GoStr → List GoStr
  | [] => [[]]
  | b :: t =>
    if b = sep then [] :: splitOnByte sep t
    else
      match splitOnByte sep t with
      | [] => [[b]]
      | h :: r => (b :: h) :: r

/-- `strings.Cut(s, sep)` for a one-byte separator: the part before the
first occurrence and the part after it (`after = ""` when absent). -/
def cutByte (sep : Nat) : GoStr → GoStr × GoStr
  | [] => ([], [])
  | b :: t =>
    if b = sep then ([], t)
    else
      let p := cutByte sep t
      (b :: p.1, p.2)

/-- ASCII whitespace test.  Models `unicode.IsSpace` for the ASCII range,
which is the range `strings.TrimSpace` exercises on the inputs this SDK
handles (Go additionally trims non-ASCII Unicode spaces). -/
def isSpaceByte (b : Nat) : Bool :=
  b = 32 || b = 9 || b = 10 || b = 11 || b = 12 || b = 13

/-- `strings.TrimSpace`. -/
def goTrimSpace (s : GoStr) : GoStr :=
  ((s.dropWhile isSpaceByte).reverse.dropWhile isSpaceByte).reverse

/-- `strings.TrimRight(s, "/")`. -/
def goTrimRightSlash (s : GoStr) : GoStr :=
  (s.reverse.dropWhile (· = 47)).reverse

/-- Bytes kept verbatim by `net/url`'s query escaping: ASCII alphanumerics
and `-`, `.`, `_`, `~`. -/
def isUnreservedByte (b : Nat) : Bool :=
  (48 ≤ b && b ≤ 57) || (65 ≤ b && b ≤ 90) || (97 ≤ b && b ≤ 122) ||
    b = 45 || b = 46 || b = 95 || b = 126

/-- Upper-case hexadecimal digit byte for a nibble (`"0123456789ABCDEF"`). -/
def hexUpperDigit (n : Nat) : Nat :=
  if n < 10 then 48 + n else 55 + n

/-- Per-byte escaping of `net/url.QueryEscape`: unreserved bytes kept,
space becomes `+`, everything else becomes `%XX`. -/
def escapeByte (b : Nat) : GoStr :=
  if isUnreservedByte b then [b]
  else if b = 32 then [43]
  else [37, hexUpperDigit (b / 16), hexUpperDigit (b % 16)]

/-- `net/url.QueryEscape`, byte for byte. -/
def queryEscape : GoStr → GoStr
  | [] => []
  | b :: t => escapeByte b ++ queryEscape t

/-- Value of a hexadecimal digit byte, when it is one. -/
def hexVal (b : Nat) : Option Nat :=
  if 48 ≤ b ∧ b ≤ 57 then some (b - 48)
  else if 65 ≤ b ∧ b ≤ 70 then some (b - 55)
  else if 97 ≤ b ∧ b ≤ 102 then some (b - 87)
  else none

/-- `net/url.QueryUnescape`: `+` becomes space, `%XX` becomes the byte
`XX`, malformed escapes fail. -/
def queryUnescape : GoStr → Option GoStr
  | [] => some []
  | b :: t =>
    if b = 37 then
      match t with
      | h1 :: h2 :: t' =>
        match hexVal h1, hexVal h2, queryUnescape t' with
        | some d1, some d2, some r => some ((16 * d1 + d2) :: r)
        | _, _, _ => none
      | _ => none
    else if b = 43 then (queryUnescape t).map (32 :: ·)
    else (queryUnescape t).map (b :: ·)

/-- `url.Values` (`map[string][]string`), modelled as an association list
whose key order never matters for encoding because `Encode` sorts keys. -/
abbrev Values := List (GoStr × List GoStr)

/-- `m[key] = append(m[key], value)` as performed by `parseQuery`. -/
def valsAdd (k v : GoStr) : Values → Values
  | [] => [(k, [v])]
  | (k', vl) :: t => if k' = k then (k', vl ++ [v]) :: t else (k', vl) :: valsAdd k v t

/-- `url.Values.Set`: replace the whole value slice with a singleton. -/
def valsSet (k v : GoStr) : Values → Values
  | [] => [(k, [v])]
  | (k', vl) :: t => if k' = k then (k', [v]) :: t else (k', vl) :: valsSet k v t

/-- `url.Values.Get`: first value of the slice, `""` when absent. -/
def valsGet (k : GoStr) : Values → GoStr
  | [] => []
  | (k', vl) :: t => if k' = k then vl.headD [] else valsGet k t

/-- The full value slice stored under a key (`v[k]` on the Go map). -/
def valsAll (k : GoStr) : Values → List GoStr
  | [] => []
  | (k', vl) :: t => if k' = k then vl else valsAll k t

/-- One iteration body of `net/url.parseQuery`: segments containing `;`
are rejected, empty segments skipped, key/value unescaped (pairs whose
unescaping fails are dropped), then appended to the map. -/
def parseQuerySegs : List GoStr → Values → Values
  | [], vs => vs
  | seg :: rest, vs =>
    if seg.contains 59 then parseQuerySegs rest vs
    else if seg = [] then parseQuerySegs rest vs
    else
      let kv := cutByte 61 seg
      match queryUnescape kv.1, queryUnescape kv.2 with
      | some k, some v => parseQuerySegs rest (valsAdd k v vs)
      | _, _ => parseQuerySegs rest vs

/-- `req.URL.Query()` = `url.ParseQuery(rawQuery)` with the error ignored. -/
def parseQuery (raw : GoStr) : Values := parseQuerySegs (splitOnByte 38 raw) []

/-- Byte-lexicographic comparison used by `sort.Strings`. -/
def lexLeBytes : GoStr → GoStr → Bool
  | [], _ => true
  | _ :: _, [] => false
  | a :: s, b :: t => if a = b then lexLeBytes s t else decide (a < b)

/-- Insertion into a `lexLeBytes`-sorted list. -/
def insertSorted (x : GoStr) : List GoStr → List GoStr
  | [] => [x]
  | y :: t => if lexLeBytes x y then x :: y :: t else y :: insertSorted x t

/-- `sort.Strings` (insertion sort; only the sortedness/permutation
behaviour is relevant). -/
def sortStrings : List GoStr → List GoStr
  | [] => []
  | x :: t => insertSorted x (sortStrings t)

/-- The `key=value` parts emitted by `url.Values.Encode` for the given
(already sorted) key list: one part per stored value. -/
def encodeParts (vs : Values) : List GoStr → List GoStr
  | [] => []
  | k :: t =>
    (valsAll k vs).map (fun v => queryEscape k ++ 61 :: queryEscape v) ++ encodeParts vs t

/-- `url.Values.Encode`: keys sorted ascending, each value emitted as
`escapedKey=escapedValue`, parts joined with `&`. -/
def encode (vs : Values) : GoStr :=
  joinBytes 38 (encodeParts vs (sortStrings (vs.map Prod.fst)))

/-! ### The query builder (`query_builder.go`) -/

/-- The mutable request footprint the builder can reach: its URL's
`RawQuery`. -/
structure Request where
  rawQuery : GoStr
deriving DecidableEq

/-- `queryBuilder`: the pointed-to request plus the accumulated values. -/
structure QueryBuilder where
  req : Request
  values : Values
deriving DecidableEq

/-- `buildQuery`: capture the request and parse its current query. -/
def buildQuery (req : Request) : QueryBuilder :=
  { req := req, values := parseQuery req.rawQuery }

/-- `setBool`: sets `strconv.FormatBool(*v)` when the pointer is non-nil. -/
def setBool (q : QueryBuilder) (key : GoStr) (v : Option Bool) : QueryBuilder :=
  match v with
  | some b => { q with values := valsSet key (if b then ascii "true" else ascii "false") q.values }
  | none => q

/-- `setString`: sets the value when its `TrimSpace` is non-empty. -/
def setString (q : QueryBuilder) (key v : GoStr) : QueryBuilder :=
  if goTrimSpace v ≠ [] then { q with values := valsSet key v q.values } else q

/-- `setStrings`: joins with commas and sets when the slice is non-empty. -/
def setStrings (q : QueryBuilder) (key : GoStr) (v : List GoStr) : QueryBuilder :=
  if v.length > 0 then { q with values := valsSet key (joinBytes 44 v) q.values } else q

/-- `apply`: write `values.Encode()` back into the request's `RawQuery`. -/
def apply (q : QueryBuilder) : QueryBuilder :=
  { q with req := { rawQuery := encode q.values } }

/-- A single setter call in a builder chain. -/
inductive SetterOp where
  | bool (key : GoStr) (v : Option Bool)
  | str (key : GoStr) (v : GoStr)
  | strs (key : GoStr) (v : List GoStr)

/-- Run one setter call. -/
def runSetter (q : QueryBuilder) : SetterOp → QueryBuilder
  | .bool k v => setBool q k v
  | .str k v => setString q k v
  | .strs k v => setStrings q k v

/-- Run a finite chain of setter calls. -/
def runSetters (q : QueryBuilder) (ops : List SetterOp) : QueryBuilder :=
  ops.foldl runSetter q

/-! ### Errors and the API client core (`errors.go`, client core file) -/

/-- `APIError`: status code, extracted message, raw body. -/
structure APIError where
  statusCode : Nat
  message : GoStr
  body : GoStr
deriving DecidableEq

/-- The closed set of `error` values this SDK produces, including the
sentinel errors of `errors.go`, `fmt.Errorf("%w: %w", ...)` wrapping, and
the two wrapping contexts added by `doRequest`. -/
inductive GoError where
  | errInvalidConfig
  | errAPIKeyRequired
  | errLibraryIDRequired
  | errInvalidMaxRetries
  | errInvalidTimeout
  | errVideoNotFound
  | errUnauthorized
  | errRateLimited
  | errBadRequest
  | errInternalServer
  | errServiceUnavailable
  | errForbidden
  | errTitleRequired
  | errVideoIDRequired
  | errResolutionRequired
  | errCDNHostnameRequired
  | errEmbedTokenKeyRequired
  | errCDNTokenKeyRequired
  | apiError (e : APIError)
  | wrapped (outer inner : GoError)
  | failedToPerformRequest (inner : GoError)
  | failedToReadResponseBody (inner : GoError)
deriving DecidableEq

/-- `parseErrorMessage`: the raw body, truncated to its first 200 bytes
followed by `"..."` when longer than 200 bytes. -/
def parseErrorMessage (body : GoStr) : GoStr :=
  if body.length > 200 then body.take 200 ++ ascii "..." else body

/-- `newAPIError`. -/
def newAPIError (statusCode : Nat) (body : GoStr) : APIError :=
  { statusCode := statusCode, body := body, message := parseErrorMessage body }

/-- `checkResponseError`: the status-code switch of the client core. -/
def checkResponseError (statusCode : Nat) (body : GoStr) : Option GoError :=
  if statusCode = 200 ∨ statusCode = 201 ∨ statusCode = 202 ∨ statusCode = 204 then none
  else if statusCode = 400 then some (.apiError (newAPIError statusCode body))
  else if statusCode = 401 then some .errUnauthorized
  else if statusCode = 404 then some .errVideoNotFound
  else if statusCode = 429 then some .errRateLimited
  else if statusCode = 500 then some .errInternalServer
  else if statusCode = 503 then some .errServiceUnavailable
  else if statusCode = 403 then some .errForbidden
  else some (.apiError (newAPIError statusCode body))

/-- `http.Header` (`map[string][]string`). -/
abbrev Headers := List (GoStr × List GoStr)

/-- `Response`: the buffered response snapshot. -/
structure Response where
  statusCode : Nat
  headers : Headers
  body : GoStr
deriving DecidableEq

/-- Outcome of the external HTTP round trip performed by
`c.httpClient.Do(req)` plus the subsequent `io.ReadAll(resp.Body)`:
either the transport fails, or it yields a status code and headers
together with a body read that succeeds or fails. -/
inductive DoOutcome where
  | doFailed (e : GoError)
  | roundTrip (statusCode : Nat) (headers : Headers) (bodyRead : Except GoError GoStr)

/-- `doRequest`, with the transport outcome as an explicit input.  Returns
the `(response, error)` pair of the Go function (a `nil` pointer or `nil`
error is `none`). -/
def doRequest (outcome : DoOutcome) : Option Response × Option GoError :=
  match outcome with
  | .doFailed e => (none, some (.failedToPerformRequest e))
  | .roundTrip statusCode headers bodyRead =>
    match bodyRead with
    | .error e => (none, some (.failedToReadResponseBody e))
    | .ok body =>
      let response : Response := { statusCode := statusCode, headers := headers, body := body }
      match checkResponseError statusCode body with
      | some e => (some response, some e)
      | none => (some response, none)

/-! ### Configuration (`config` file) -/

/-- The fields of `http.Client` this SDK sets. -/
structure GoHTTPClient where
  timeout : Int
deriving DecidableEq

/-- `Config`.  `Logger` carries no behaviour relevant here and is kept as
an opaque optional marker; `mu` only guards `init` and is not modelled
(no concurrency in this development). -/
structure Config where
  logger : Option Unit
  apiKey : GoStr
  libraryID : GoStr
  cdnHostname : GoStr
  embedTokenKey : GoStr
  cdnTokenKey : GoStr
  userAgent : GoStr
  baseURL : GoStr
  httpClient : Option GoHTTPClient
  maxRetries : Int
  timeout : Int
deriving DecidableEq

def DefaultMaxRetries : Int := 3

/-- 60 seconds as a `time.Duration` (nanoseconds). -/
def DefaultTimeout : Int := 60 * 1000000000

def DefaultUserAgent : GoStr := ascii "bunnystream-go/0.1.0"

def DefaultBaseURL : GoStr := ascii "https://video.bunnycdn.com"

/-- `Config.init`: fill missing fields with defaults, in source order. -/
def Config.init (c : Config) : Config :=
  let c := if c.userAgent = [] then { c with userAgent := DefaultUserAgent } else c
  let c := if c.maxRetries < 1 then { c with maxRetries := DefaultMaxRetries } else c
  let c := if c.timeout < 1 then { c with timeout := DefaultTimeout } else c
  let c := if c.baseURL = [] then { c with baseURL := DefaultBaseURL } else c
  match c.httpClient with
  | none => { c with httpClient := some { timeout := c.timeout } }
  | some _ => c

/-- `Config.validate`. -/
def Config.validate (c : Config) : Option GoError :=
  if c.apiKey = [] then some (.wrapped .errInvalidConfig .errAPIKeyRequired)
  else if c.libraryID = [] then some (.wrapped .errInvalidConfig .errLibraryIDRequired)
  else none

/-- The status classification exactly as the specification words it:
success codes first, then the sentinel codes, then the structured-error
fallback covering 400 and every unrecognized code. -/
def specStatusClassification (statusCode : Nat) (body : GoStr) : Option GoError :=
  if statusCode = 200 ∨ statusCode = 201 ∨ statusCode = 202 ∨ statusCode = 204 then none
  else if statusCode = 401 then some .errUnauthorized
  else if statusCode = 403 then some .errForbidden
  else if statusCode = 404 then some .errVideoNotFound
  else if statusCode = 429 then some .errRateLimited
  else if statusCode = 500 then some .errInternalServer
  else if statusCode = 503 then some .errServiceUnavailable
  else some (.apiError (newAPIError statusCode body))

/-- A configuration that passes validation while leaving every
CDN/signing field empty. -/
def minimalValidConfig : Config :=
  { logger := none, apiKey := ascii "key", libraryID := ascii "42",
    cdnHostname := [], embedTokenKey := [], cdnTokenKey := [],
    userAgent := [], baseURL := [], httpClient := none,
    maxRetries := 0, timeout := 0 }

/-! ### Playback URL generation (`get_url` file) -/

/-- `cdnBase`: base CDN URL for a video, requiring a configured hostname;
a trailing slash on the hostname is stripped before concatenation. -/
def cdnBase (cfg : Config) (videoID : GoStr) : Except GoError GoStr :=
  if cfg.cdnHostname = [] then .error .errCDNHostnameRequired
  else .ok (ascii "https://" ++ goTrimRightSlash cfg.cdnHostname ++ 47 :: videoID)

/-- `HLSPlaylistURL`. -/
def HLSPlaylistURL (cfg : Config) (videoID : GoStr) : Except GoError GoStr :=
  if goTrimSpace videoID = [] then .error .errVideoIDRequired
  else
    match cdnBase cfg videoID with
    | .error e => .error e
    | .ok base => .ok (base ++ ascii "/playlist.m3u8")

/-- A configuration with a CDN hostname and CDN token key set (used to
instantiate the CDN URL theorems). -/
def cdnConfig : Config :=
  { logger := none, apiKey := ascii "k", libraryID := ascii "1",
    cdnHostname := ascii "vz-abc.b-cdn.net", embedTokenKey := [],
    cdnTokenKey := ascii "secret", userAgent := [], baseURL := [],
    httpClient := none, maxRetries := 0, timeout := 0 }

/-! ### SHA-256 (`crypto/sha256`) over byte lists, 32-bit words as `Nat`
with explicit reduction mod `2^32`. -/

/-- Truncation to a 32-bit word. -/
def w32 (n : Nat) : Nat := n % 4294967296

/-- 32-bit rotate right. -/
def rotr32 (x n : Nat) : Nat := w32 ((x >>> n) ||| (x <<< (32 - n)))

def ch32 (e f g : Nat) : Nat := (e &&& f) ^^^ ((e ^^^ 4294967295) &&& g)

def maj32 (a b c : Nat) : Nat := (a &&& b) ^^^ (a &&& c) ^^^ (b &&& c)

def bigSigma0 (x : Nat) : Nat := rotr32 x 2 ^^^ rotr32 x 13 ^^^ rotr32 x 22

def bigSigma1 (x : Nat) : Nat := rotr32 x 6 ^^^ rotr32 x 11 ^^^ rotr32 x 25

def smallSigma0 (x : Nat) : Nat := rotr32 x 7 ^^^ rotr32 x 18 ^^^ (x >>> 3)

def smallSigma1 (x : Nat) : Nat := rotr32 x 17 ^^^ rotr32 x 19 ^^^ (x >>> 10)

/-- The 64 SHA-256 round constants (decimal). -/
def sha256K : List Nat :=
  [1116352408, 1899447441, 3049323471, 3921009573, 961987163,
   1508970993, 2453635748, 2870763221, 3624381080, 310598401,
   607225278, 1426881987, 1925078388, 2162078206, 2614888103,
   3248222580, 3835390401, 4022224774, 264347078, 604807628,
   770255983, 1249150122, 1555081692, 1996064986, 2554220882,
   2821834349, 2952996808, 3210313671, 3336571891, 3584528711,
   113926993, 338241895, 666307205, 773529912, 1294757372,
   1396182291, 1695183700, 1986661051, 2177026350, 2456956037,
   2730485921, 2820302411, 3259730800, 3345764771, 3516065817,
   3600352804, 4094571909, 275423344, 430227734, 506948616,
   659060556, 883997877, 958139571, 1322822218, 1537002063,
   1747873779, 1955562222, 2024104815, 2227730452, 2361852424,
   2428436474, 2756734187, 3204031479, 3329325298]

/-- The SHA-256 initial hash value (decimal). -/
def sha256H0 : List Nat :=
  [1779033703, 3144134277, 1013904242,
   2773480762, 1359893119, 2600822924,
   528734635, 1541459225]

/-- Big-endian packing of bytes into 32-bit words. -/
def bytesToWords : GoStr → List Nat
  | b0 :: b1 :: b2 :: b3 :: t => (((b0 * 256 + b1) * 256 + b2) * 256 + b3) :: bytesToWords t
  | _ => []

/-- Message-schedule extension from 16 to 64 words. -/
def sha256Schedule (w16 : List Nat) : List Nat :=
  (List.range 48).foldl (fun ws i =>
    let t := i + 16
    ws ++ [w32 (smallSigma1 (ws.getD (t - 2) 0) + ws.getD (t - 7) 0 +
      smallSigma0 (ws.getD (t - 15) 0) + ws.getD (t - 16) 0)]) w16

/-- One SHA-256 round on the 8-word working state, fed `(Wt, Kt)`. -/
def sha256Round (st : List Nat) (wk : Nat × Nat) : List Nat :=
  let a := st.getD 0 0
  let b := st.getD 1 0
  let c := st.getD 2 0
  let d := st.getD 3 0
  let e := st.getD 4 0
  let f := st.getD 5 0
  let g := st.getD 6 0
  let hh := st.getD 7 0
  let t1 := w32 (hh + bigSigma1 e + ch32 e f g + wk.2 + wk.1)
  let t2 := w32 (bigSigma0 a + maj32 a b c)
  [w32 (t1 + t2), a, b, c, w32 (d + t1), e, f, g]

/-- SHA-256 compression of one 64-byte block into the running hash. -/
def sha256Compress (hs : List Nat) (block : GoStr) : List Nat :=
  let ws := sha256Schedule (bytesToWords block)
  let st := (ws.zip sha256K).foldl sha256Round hs
  List.zipWith (fun x y => w32 (x + y)) hs st

/-- Big-endian 8-byte encoding (the 64-bit message-length field). -/
def beBytes8 (n : Nat) : GoStr :=
  [(n >>> 56) % 256, (n >>> 48) % 256, (n >>> 40) % 256, (n >>> 32) % 256,
   (n >>> 24) % 256, (n >>> 16) % 256, (n >>> 8) % 256, n % 256]

/-- SHA-256 padding: `0x80`, zeros to 56 mod 64, then the bit length. -/
def sha256Pad (msg : GoStr) : GoStr :=
  msg ++ 128 :: List.replicate ((119 - msg.length % 64) % 64) 0 ++ beBytes8 (msg.length * 8)

/-- Split a (padded) byte string into 64-byte blocks. -/
def toBlocks (l : GoStr) : List GoStr :=
  if h : l = [] then [] else l.take 64 :: toBlocks (l.drop 64)
  termination_by l.length
  decreasing_by
    simp only [List.length_drop]
    have hp : 0 < l.length := List.length_pos.mpr h
    omega

/-- Big-endian unpacking of 32-bit words into bytes. -/
def wordsToBytes : List Nat → GoStr
  | [] => []
  | w :: t => (w >>> 24) % 256 :: (w >>> 16) % 256 :: (w >>> 8) % 256 :: w % 256 :: wordsToBytes t

/-- SHA-256 of a byte string (`sha256.Sum256` / `sha256.New` + `Sum`). -/
def sha256 (msg : GoStr) : GoStr :=
  wordsToBytes ((toBlocks (sha256Pad msg)).foldl sha256Compress sha256H0)

/-! ### Standard-alphabet base64 (`encoding/base64.StdEncoding`) -/

/-- The standard base64 alphabet. -/
def b64Char (n : Nat) : Nat :=
  (ascii "ABCDEFGHIJKLMNOPQRSTUVWXYZabcdefghijklmnopqrstuvwxyz0123456789+/").getD n 0

/-- `base64.StdEncoding.EncodeToString` over bytes, with `=` padding. -/
def base64Encode : GoStr → GoStr
  | b1 :: b2 :: b3 :: t =>
    b64Char (b1 / 4) :: b64Char ((b1 % 4) * 16 + b2 / 16) ::
      b64Char ((b2 % 16) * 4 + b3 / 64) :: b64Char (b3 % 64) :: base64Encode t
  | [b1, b2] => [b64Char (b1 / 4), b64Char ((b1 % 4) * 16 + b2 / 16), b64Char ((b2 % 16) * 4), 61]
  | [b1] => [b64Char (b1 / 4), b64Char ((b1 % 4) * 16), 61, 61]
  | [] => []

/-- `strings.ReplaceAll` for a single-byte pattern. -/
def replaceAllByte (s : GoStr) (old : Nat) (new : GoStr) : GoStr :=
  match s with
  | [] => []
  | b :: t => (if b = old then new else [b]) ++ replaceAllByte t old new

/-- `fmt.Sprintf("%d", n)` for a natural number. -/
def natToDec (n : Nat) : GoStr := (Nat.toDigits 10 n).map Char.toNat

/-- `fmt.Sprintf("%d", i)` for an `int64` expiry. -/
def intToDec (i : Int) : GoStr :=
  if i < 0 then 45 :: natToDec i.natAbs else natToDec i.toNat

/-! ### The CDN URL signer (`sign_url` file) -/

/-- `SignedURLOptions` (the value assembled by the functional options). -/
structure SignedURLOptions where
  userIP : GoStr
  countriesAllowed : GoStr
  countriesBlocked : GoStr
deriving DecidableEq

/-- `signCDNToken`: Bunny CDN token-authentication-v2 token.  The Go
function also returns an always-`nil` error, dropped here. -/
def signCDNToken (key path : GoStr) (expiry : Int) (opts : SignedURLOptions) : GoStr :=
  let extraParams : Values := []
  let extraParams := if opts.countriesAllowed ≠ [] then
    valsSet (ascii "token_countries") opts.countriesAllowed extraParams else extraParams
  let extraParams := if opts.countriesBlocked ≠ [] then
    valsSet (ascii "token_countries_blocked") opts.countriesBlocked extraParams else extraParams
  let keys := sortStrings (extraParams.map Prod.fst)
  let pairs := keys.map (fun k => k ++ 61 :: valsGet k extraParams)
  let paramStr := joinBytes 38 pairs
  let hashable := key ++ path ++ intToDec expiry
  let hashable := if opts.userIP ≠ [] then hashable ++ opts.userIP else hashable
  let hashable := if paramStr ≠ [] then hashable ++ paramStr else hashable
  let token := base64Encode (sha256 hashable)
  let token := replaceAllByte token 10 []
  let token := replaceAllByte token 43 [45]
  let token := replaceAllByte token 47 [95]
  replaceAllByte token 61 []

/-- The URL-safe transform exactly as the claim words it: `+` becomes
`-`, `/` becomes `_`, every `=` and every newline byte is deleted. -/
def specURLSafe (s : GoStr) : GoStr :=
  s.filterMap (fun b =>
    if b = 43 then some 45
    else if b = 47 then some 95
    else if b = 61 ∨ b = 10 then none
    else some b)

/-- The extra-parameter string as the claim words it:
`token_countries=<CountriesAllowed>` and/or
`token_countries_blocked=<CountriesBlocked>`, each included only when its
value is non-empty, joined with `&` in ascending lexical key order, with
no URL-encoding applied to the values. -/
def specExtraParamStr (opts : SignedURLOptions) : GoStr :=
  joinBytes 38
    ((if opts.countriesAllowed ≠ [] then
        [ascii "token_countries=" ++ opts.countriesAllowed] else []) ++
     (if opts.countriesBlocked ≠ [] then
        [ascii "token_countries_blocked=" ++ opts.countriesBlocked] else []))

/-- The whole signing algorithm as the claim words it: the URL-safe
transform of the standard base64 encoding of the SHA-256 digest of
key + path + decimal expiry + optional UserIP + optional extra-parameter
string, concatenated without separators. -/
def specSignCDNToken (key path : GoStr) (expiry : Int) (opts : SignedURLOptions) : GoStr :=
  let ps := specExtraParamStr opts
  specURLSafe (base64Encode (sha256
    (key ++ path ++ intToDec expiry ++
      (if opts.userIP ≠ [] then opts.userIP else []) ++
      (if ps ≠ [] then ps else []))))

/-- `SignedHLSURL`: directory-token signed HLS playlist URL.  The expiry
(`time.Now().Add(ttl).Unix()`) is passed explicitly; the functional
options are modelled as the assembled `SignedURLOptions` value. -/
def SignedHLSURL (cfg : Config) (videoID : GoStr) (expiry : Int)
    (opts : SignedURLOptions) : Except GoError GoStr :=
  if goTrimSpace videoID = [] then .error .errVideoIDRequired
  else if cfg.cdnHostname = [] then .error .errCDNHostnameRequired
  else if cfg.cdnTokenKey = [] then .error .errCDNTokenKeyRequired
  else
    let dirPath := 47 :: videoID ++ [47]
    let filePath := 47 :: videoID ++ ascii "/playlist.m3u8"
    let token := signCDNToken cfg.cdnTokenKey dirPath expiry opts
    let host := goTrimRightSlash cfg.cdnHostname
    .ok (ascii "https://" ++ host ++ ascii "/bcdn_token=" ++ token ++ ascii "&expires=" ++
      intToDec expiry ++ ascii "&token_path=" ++ queryEscape dirPath ++ filePath)

/-- Inverse of `hexUpperDigit` (proof device). -/
def unhexUpper (v : Nat) : Nat := if v < 58 then v - 48 else v - 55

/-- Left inverse of `queryEscape` (proof device used to show injectivity
of the escaping). -/
def escDecode (l : GoStr) : GoStr :=
  match l with
  | [] => []
  | b :: t =>
    if b = 37 then
      match t with
      | x :: y :: t' => (16 * unhexUpper x + unhexUpper y) :: escDecode t'
      | _ => [b]
    else if b = 43 then 32 :: escDecode t
    else b :: escDecode t
  termination_by l.length
  decreasing_by
    all_goals simp
    omega

/-- The key occurrences of a raw query string, read syntactically: split
on `&`, drop empty segments, take the part before the first `=`. -/
def queryStringKeys (raw : GoStr) : List GoStr :=
  (splitOnByte 38 raw).filterMap (fun seg => if seg = [] then none else some (cutByte 61 seg).1)

/-- The escaped key emitted for each `key=value` pair of `encode`, one
occurrence per stored value, in sorted key order. -/
def encodedKeyOccurrences (vs : Values) : List GoStr → List GoStr
  | [] => []
  | k :: t => (valsAll k vs).map (fun _ => queryEscape k) ++ encodedKeyOccurrences vs t

/-- Each value slice holds at most one entry (no pre-existing duplicate
keys in the parsed query). -/
def SingleValued (vs : Values) : Prop := ∀ p ∈ vs, p.2.length ≤ 1

instance singleValuedDecidable (vs : Values) : Decidable (SingleValued vs) := by
  unfold SingleValued
  infer_instance

/-! ### Theorems -/

theorem runSetter_req (q : QueryBuilder) (op : SetterOp) : (runSetter q op).req = q.req := by
  cases op with
  | bool k v => cases v <;> rfl
  | str k v =>
    simp only [runSetter, setString]
    split <;> rfl
  | strs k v =>
    simp only [runSetter, setStrings]
    split <;> rfl

theorem runSetters_req (q : QueryBuilder) (ops : List SetterOp) :
    (runSetters q ops).req = q.req := by
  induction ops generalizing q with
  | nil => rfl
  | cons op t ih =>
    simp only [runSetters, List.foldl_cons] at *
    rw [ih, runSetter_req]

/-- C3: for every HTTP request and every finite chain of `setBool`,
`setString` and `setStrings` calls on a builder created by `buildQuery`
over that request, the request's query string is unchanged from its value
at builder creation until `apply()` is invoked: no setter call mutates
the request. -/
theorem setters_never_mutate_request (req : Request) (ops : List SetterOp) :
    (runSetters (buildQuery req) ops).req = req := by
  rw [runSetters_req]; rfl

/-- C2: for every status code and body, the client's classification is:
no error on 200/201/202/204, the unauthorized sentinel on 401, the
forbidden sentinel on 403, the not-found sentinel on 404, the
rate-limited sentinel on 429, the internal-server sentinel on 500, the
service-unavailable sentinel on 503, and a structured `APIError` carrying
the status code and raw body on 400 and on every other code: every status
code is classified, none silently succeeds. -/
theorem checkResponseError_matches_spec_classification (statusCode : Nat) (body : GoStr) :
    checkResponseError statusCode body = specStatusClassification statusCode body := by
  unfold checkResponseError specStatusClassification
  split_ifs <;> simp_all

/-- C6 (counterexample): on a 201-byte body the constructed message is
203 bytes long — it is the 200-byte prefix with `"..."` appended, not a
truncation to at most 200 bytes. -/
theorem parseErrorMessage_not_truncated_to_200 :
    200 < (parseErrorMessage (List.replicate 201 97)).length ∧
    parseErrorMessage (List.replicate 201 97) ≠ (List.replicate 201 97).take 200 := by
  have hmsg : parseErrorMessage (List.replicate 201 97) =
      (List.replicate 201 97).take 200 ++ ascii "..." := by
    simp [parseErrorMessage]
  have hdots : ascii "..." = [46, 46, 46] := rfl
  constructor
  · rw [hmsg, hdots]
    simp
  · rw [hmsg, hdots]
    intro hEq
    have hlen := congrArg List.length hEq
    simp at hlen

/-- C6 (amended): the constructed `APIError` carries the response status
code and the raw body, and its message is the raw body when that body is
at most 200 bytes, and otherwise the body's 200-byte prefix followed by
the three ASCII bytes `"..."`, for a message of exactly 203 bytes. -/
theorem newAPIError_carries_status_body_and_truncated_message (statusCode : Nat) (body : GoStr) :
    (newAPIError statusCode body).statusCode = statusCode ∧
    (newAPIError statusCode body).body = body ∧
    (newAPIError statusCode body).message =
      (if 200 < body.length then body.take 200 ++ ascii "..." else body) ∧
    (newAPIError statusCode body).message.length =
      (if 200 < body.length then 203 else body.length) := by
  refine ⟨rfl, rfl, rfl, ?_⟩
  show (parseErrorMessage body).length = _
  unfold parseErrorMessage
  split_ifs with h
  · have : ascii "..." = [46, 46, 46] := rfl
    simp [this]
    omega
  · rfl

/-- C10: when the round trip succeeds and the body is fully read but the
status classifies as an error, `doRequest` returns the fully constructed
response snapshot together with the error; transport failures and
body-read failures return no response, only a wrapped error. -/
theorem doRequest_returns_response_with_classification_error
    (statusCode : Nat) (headers : Headers) (body : GoStr) (e eDo eRead : GoError)
    (hc : checkResponseError statusCode body = some e) :
    doRequest (.roundTrip statusCode headers (.ok body)) =
      (some { statusCode := statusCode, headers := headers, body := body }, some e) ∧
    doRequest (.doFailed eDo) = (none, some (.failedToPerformRequest eDo)) ∧
    doRequest (.roundTrip statusCode headers (.error eRead)) =
      (none, some (.failedToReadResponseBody eRead)) := by
  refine ⟨?_, rfl, rfl⟩
  simp [doRequest, hc]

/-- Witness for C10 at a concrete 404 outcome. -/
theorem doRequest_returns_response_witness :
    checkResponseError 404 [] = some .errVideoNotFound ∧
    (doRequest (.roundTrip 404 [] (.ok [])) =
      (some { statusCode := 404, headers := [], body := [] }, some .errVideoNotFound) ∧
    doRequest (.doFailed .errUnauthorized) =
      (none, some (.failedToPerformRequest .errUnauthorized)) ∧
    doRequest (.roundTrip 404 [] (.error .errUnauthorized)) =
      (none, some (.failedToReadResponseBody .errUnauthorized))) :=
  ⟨by decide, doRequest_returns_response_with_classification_error 404 [] []
    .errVideoNotFound .errUnauthorized .errUnauthorized (by decide)⟩

/-- C5 (counterexample): a configuration that passes validation and has
had defaults applied can still have empty `CDNHostname`, `EmbedTokenKey`
and `CDNTokenKey`: `init` never defaults them. -/
theorem config_optional_fields_counterexample :
    Config.validate minimalValidConfig = none ∧
    (Config.init minimalValidConfig).cdnHostname = [] ∧
    (Config.init minimalValidConfig).embedTokenKey = [] ∧
    (Config.init minimalValidConfig).cdnTokenKey = [] := by
  refine ⟨?_, rfl, rfl, rfl⟩
  decide

theorem config_init_userAgent (c : Config) :
    (Config.init c).userAgent = if c.userAgent = [] then DefaultUserAgent else c.userAgent := by
  unfold Config.init
  dsimp only
  split_ifs <;> split <;> rfl

theorem config_init_baseURL (c : Config) :
    (Config.init c).baseURL = if c.baseURL = [] then DefaultBaseURL else c.baseURL := by
  unfold Config.init
  dsimp only
  split_ifs <;> split <;> rfl

theorem config_init_maxRetries (c : Config) :
    (Config.init c).maxRetries = if c.maxRetries < 1 then DefaultMaxRetries else c.maxRetries := by
  unfold Config.init
  dsimp only
  split_ifs <;> split <;> rfl

theorem config_init_timeout (c : Config) :
    (Config.init c).timeout = if c.timeout < 1 then DefaultTimeout else c.timeout := by
  unfold Config.init
  dsimp only
  split_ifs <;> split <;> rfl

theorem config_init_httpClient_ne_none (c : Config) :
    (Config.init c).httpClient ≠ none := by
  unfold Config.init
  dsimp only
  split_ifs <;> split <;> simp_all

/-- C5 (amended): once a configuration is validated and defaulted, the
defaulted optional fields — `UserAgent`, `BaseURL`, `MaxRetries`,
`Timeout` and the HTTP client handle — are non-empty/non-zero; the
CDN/signing fields (`CDNHostname`, `EmbedTokenKey`, `CDNTokenKey`) are
not defaulted and may remain empty. -/
theorem config_init_defaults_nonempty (c : Config) (h : Config.validate c = none) :
    (Config.init c).userAgent ≠ [] ∧
    (Config.init c).baseURL ≠ [] ∧
    1 ≤ (Config.init c).maxRetries ∧
    1 ≤ (Config.init c).timeout ∧
    (Config.init c).httpClient ≠ none := by
  refine ⟨?_, ?_, ?_, ?_, config_init_httpClient_ne_none c⟩
  · rw [config_init_userAgent]
    split_ifs with hu
    · decide
    · exact hu
  · rw [config_init_baseURL]
    split_ifs with hb
    · decide
    · exact hb
  · rw [config_init_maxRetries]
    split_ifs with hm
    · decide
    · omega
  · rw [config_init_timeout]
    split_ifs with ht
    · decide
    · omega

/-- Witness for C5's amended theorem at a concrete configuration. -/
theorem config_init_defaults_nonempty_witness :
    Config.validate minimalValidConfig = none ∧
    ((Config.init minimalValidConfig).userAgent ≠ [] ∧
    (Config.init minimalValidConfig).baseURL ≠ [] ∧
    1 ≤ (Config.init minimalValidConfig).maxRetries ∧
    1 ≤ (Config.init minimalValidConfig).timeout ∧
    (Config.init minimalValidConfig).httpClient ≠ none) :=
  ⟨by decide, config_init_defaults_nonempty minimalValidConfig (by decide)⟩

theorem goTrimRightSlash_append_slash (s : GoStr) :
    goTrimRightSlash (s ++ [47]) = goTrimRightSlash s := by
  simp [goTrimRightSlash, List.dropWhile]

/-- C9: with a configured CDN hostname and a non-blank video id,
`HLSPlaylistURL` is exactly `https://` + hostname-with-trailing-slashes-
stripped + `/` + videoID + `/playlist.m3u8`, and appending a trailing
slash to the configured hostname never changes (in particular never
doubles a separator in) the generated URL. -/
theorem HLSPlaylistURL_format_and_slash_stripping (cfg : Config) (videoID : GoStr)
    (hHost : cfg.cdnHostname ≠ []) (hVid : goTrimSpace videoID ≠ []) :
    HLSPlaylistURL cfg videoID =
      .ok (ascii "https://" ++ goTrimRightSlash cfg.cdnHostname ++
        47 :: videoID ++ ascii "/playlist.m3u8") ∧
    HLSPlaylistURL { cfg with cdnHostname := cfg.cdnHostname ++ [47] } videoID =
      HLSPlaylistURL cfg videoID := by
  constructor
  · simp [HLSPlaylistURL, cdnBase, hHost, hVid]
  · simp [HLSPlaylistURL, cdnBase, hHost, hVid, goTrimRightSlash_append_slash]

/-- Witness for C9 at a concrete configuration and video id. -/
theorem HLSPlaylistURL_format_witness :
    (cdnConfig.cdnHostname ≠ [] ∧ goTrimSpace (ascii "video-abc") ≠ []) ∧
    (HLSPlaylistURL cdnConfig (ascii "video-abc") =
      .ok (ascii "https://" ++ goTrimRightSlash cdnConfig.cdnHostname ++
        47 :: ascii "video-abc" ++ ascii "/playlist.m3u8") ∧
    HLSPlaylistURL { cdnConfig with cdnHostname := cdnConfig.cdnHostname ++ [47] }
        (ascii "video-abc") = HLSPlaylistURL cdnConfig (ascii "video-abc")) :=
  ⟨⟨by decide, by decide⟩,
    HLSPlaylistURL_format_and_slash_stripping cdnConfig (ascii "video-abc")
      (by decide) (by decide)⟩

theorem replaceAllByte_append (s t : GoStr) (o : Nat) (n : GoStr) :
    replaceAllByte (s ++ t) o n = replaceAllByte s o n ++ replaceAllByte t o n := by
  induction s with
  | nil => rfl
  | cons b s ih => simp [replaceAllByte, ih]

theorem replaceChain_eq_specURLSafe (s : GoStr) :
    replaceAllByte (replaceAllByte (replaceAllByte (replaceAllByte s 10 []) 43 [45]) 47 [95]) 61 []
      = specURLSafe s := by
  induction s with
  | nil => rfl
  | cons b t ih =>
    by_cases h10 : b = 10
    · subst h10
      simpa [replaceAllByte, specURLSafe] using ih
    · by_cases h43 : b = 43
      · subst h43
        simpa [replaceAllByte, specURLSafe, replaceAllByte_append] using ih
      · by_cases h47 : b = 47
        · subst h47
          simpa [replaceAllByte, specURLSafe, replaceAllByte_append] using ih
        · by_cases h61 : b = 61
          · subst h61
            simpa [replaceAllByte, specURLSafe, replaceAllByte_append] using ih
          · simpa [replaceAllByte, specURLSafe, replaceAllByte_append, h10, h43, h47, h61]
              using ih

theorem append_if_ne_nil (base s : GoStr) :
    (if s ≠ [] then base ++ s else base) = base ++ (if s ≠ [] then s else []) := by
  split <;> simp

/-- C1: for every secret key, resource path, Unix expiry and restriction
options, `signCDNToken` returns the URL-safe transform (`+` to `-`, `/`
to `_`, `=` and newlines deleted) of the standard-alphabet base64
encoding of the SHA-256 digest of key + path + decimal expiry + UserIP
(only if non-empty) + the extra-parameter string (only if non-empty),
where the extra-parameter string joins `token_countries=...` and/or
`token_countries_blocked=...` with `&` in ascending lexical key order and
applies no URL-encoding to the values. -/
theorem signCDNToken_matches_spec (key path : GoStr) (expiry : Int) (opts : SignedURLOptions) :
    signCDNToken key path expiry opts = specSignCDNToken key path expiry opts := by
  obtain ⟨ip, ca, cb⟩ := opts
  have heqa : ascii "token_countries=" = ascii "token_countries" ++ [61] := by decide
  have heqb : ascii "token_countries_blocked=" = ascii "token_countries_blocked" ++ [61] := by
    decide
  have hne : ascii "token_countries" ≠ ascii "token_countries_blocked" := by decide
  have hle : lexLeBytes (ascii "token_countries") (ascii "token_countries_blocked") = true := by
    decide
  by_cases hca : ca = [] <;> by_cases hcb : cb = []
  · simp [signCDNToken, specSignCDNToken, specExtraParamStr, hca, hcb, sortStrings, joinBytes,
      replaceChain_eq_specURLSafe, append_if_ne_nil]
    by_cases hip : ip = [] <;> simp [hip]
  · simp [signCDNToken, specSignCDNToken, specExtraParamStr, hca, hcb, sortStrings, insertSorted,
      joinBytes, valsSet, valsGet, heqb, replaceChain_eq_specURLSafe, append_if_ne_nil]
    by_cases hip : ip = [] <;> simp [hip]
  · simp [signCDNToken, specSignCDNToken, specExtraParamStr, hca, hcb, sortStrings, insertSorted,
      joinBytes, valsSet, valsGet, heqa, replaceChain_eq_specURLSafe, append_if_ne_nil]
    by_cases hip : ip = [] <;> simp [hip]
  · simp [signCDNToken, specSignCDNToken, specExtraParamStr, hca, hcb, sortStrings, insertSorted,
      joinBytes, valsSet, valsGet, hne, hle, heqa, heqb, replaceChain_eq_specURLSafe,
      append_if_ne_nil]
    by_cases hip : ip = [] <;> simp [hip]

/-- C4: with CDN hostname and CDN token key configured and a non-blank
video id, `SignedHLSURL` signs the directory path `/{videoID}/` (not the
playlist file) and returns exactly
`https://{host}/bcdn_token={token}&expires={expiry}&token_path={urlEncodedDirPath}/{videoID}/playlist.m3u8`
with the host's trailing slashes stripped; in particular the result ends
with `/playlist.m3u8` and contains `token_path=`. -/
theorem SignedHLSURL_directory_token_format (cfg : Config) (videoID : GoStr) (expiry : Int)
    (opts : SignedURLOptions) (hVid : goTrimSpace videoID ≠ []) (hHost : cfg.cdnHostname ≠ [])
    (hKey : cfg.cdnTokenKey ≠ []) :
    SignedHLSURL cfg videoID expiry opts =
      .ok (ascii "https://" ++ goTrimRightSlash cfg.cdnHostname ++ ascii "/bcdn_token=" ++
        signCDNToken cfg.cdnTokenKey (47 :: videoID ++ [47]) expiry opts ++
        ascii "&expires=" ++ intToDec expiry ++ ascii "&token_path=" ++
        queryEscape (47 :: videoID ++ [47]) ++ 47 :: videoID ++ ascii "/playlist.m3u8") ∧
    (∃ pre, SignedHLSURL cfg videoID expiry opts = .ok (pre ++ ascii "/playlist.m3u8")) ∧
    (∃ pre post, SignedHLSURL cfg videoID expiry opts =
      .ok (pre ++ ascii "token_path=" ++ post)) := by
  have h38 : ascii "&token_path=" = 38 :: ascii "token_path=" := by decide
  have hmain : SignedHLSURL cfg videoID expiry opts =
      .ok (ascii "https://" ++ goTrimRightSlash cfg.cdnHostname ++ ascii "/bcdn_token=" ++
        signCDNToken cfg.cdnTokenKey (47 :: videoID ++ [47]) expiry opts ++
        ascii "&expires=" ++ intToDec expiry ++ ascii "&token_path=" ++
        queryEscape (47 :: videoID ++ [47]) ++ 47 :: videoID ++ ascii "/playlist.m3u8") := by
    simp [SignedHLSURL, hVid, hHost, hKey]
  refine ⟨hmain,
    ⟨ascii "https://" ++ goTrimRightSlash cfg.cdnHostname ++ ascii "/bcdn_token=" ++
      signCDNToken cfg.cdnTokenKey (47 :: videoID ++ [47]) expiry opts ++ ascii "&expires=" ++
      intToDec expiry ++ ascii "&token_path=" ++ queryEscape (47 :: videoID ++ [47]) ++
      47 :: videoID, ?_⟩,
    ⟨ascii "https://" ++ goTrimRightSlash cfg.cdnHostname ++ ascii "/bcdn_token=" ++
      signCDNToken cfg.cdnTokenKey (47 :: videoID ++ [47]) expiry opts ++ ascii "&expires=" ++
      intToDec expiry ++ [38],
      queryEscape (47 :: videoID ++ [47]) ++ 47 :: videoID ++ ascii "/playlist.m3u8", ?_⟩⟩
  · rw [hmain]
  · rw [hmain, h38]
    simp

/-- Witness for C4 at a concrete configuration, video id and expiry. -/
theorem SignedHLSURL_directory_token_format_witness :
    (goTrimSpace (ascii "video-abc") ≠ [] ∧ cdnConfig.cdnHostname ≠ [] ∧
      cdnConfig.cdnTokenKey ≠ []) ∧
    (SignedHLSURL cdnConfig (ascii "video-abc") 1700000000 ⟨[], [], []⟩ =
      .ok (ascii "https://" ++ goTrimRightSlash cdnConfig.cdnHostname ++ ascii "/bcdn_token=" ++
        signCDNToken cdnConfig.cdnTokenKey (47 :: ascii "video-abc" ++ [47]) 1700000000
          ⟨[], [], []⟩ ++
        ascii "&expires=" ++ intToDec 1700000000 ++ ascii "&token_path=" ++
        queryEscape (47 :: ascii "video-abc" ++ [47]) ++ 47 :: ascii "video-abc" ++
        ascii "/playlist.m3u8") ∧
    (∃ pre, SignedHLSURL cdnConfig (ascii "video-abc") 1700000000 ⟨[], [], []⟩ =
      .ok (pre ++ ascii "/playlist.m3u8")) ∧
    (∃ pre post, SignedHLSURL cdnConfig (ascii "video-abc") 1700000000 ⟨[], [], []⟩ =
      .ok (pre ++ ascii "token_path=" ++ post))) :=
  ⟨⟨by decide, by decide, by decide⟩,
    SignedHLSURL_directory_token_format cdnConfig (ascii "video-abc") 1700000000 ⟨[], [], []⟩
      (by decide) (by decide) (by decide)⟩

theorem unhexUpper_hexUpperDigit (n : Nat) : unhexUpper (hexUpperDigit n) = n := by
  unfold unhexUpper hexUpperDigit
  split_ifs <;> omega

theorem isUnreservedByte_ne (b : Nat) (h : isUnreservedByte b = true) :
    b ≠ 37 ∧ b ≠ 43 ∧ b ≠ 32 ∧ b ≠ 38 ∧ b ≠ 61 := by
  simp only [isUnreservedByte, Bool.or_eq_true, Bool.and_eq_true, decide_eq_true_eq] at h
  omega

theorem hexUpperDigit_ne (n : Nat) : hexUpperDigit n ≠ 38 ∧ hexUpperDigit n ≠ 61 := by
  unfold hexUpperDigit
  split_ifs <;> omega

theorem escDecode_cons_ne (b : Nat) (t : GoStr) (h37 : b ≠ 37) (h43 : b ≠ 43) :
    escDecode (b :: t) = b :: escDecode t := by
  rw [escDecode.eq_def]
  simp [h37, h43]

theorem escDecode_hex (x y : Nat) (t : GoStr) :
    escDecode (37 :: x :: y :: t) = (16 * unhexUpper x + unhexUpper y) :: escDecode t := by
  rw [escDecode.eq_def]
  simp

theorem escDecode_plus (t : GoStr) : escDecode (43 :: t) = 32 :: escDecode t := by
  rw [escDecode.eq_def]
  simp

theorem escDecode_escapeByte (b : Nat) (rest : GoStr) :
    escDecode (escapeByte b ++ rest) = b :: escDecode rest := by
  unfold escapeByte
  split_ifs with h1 h2
  · obtain ⟨h37, h43, _, _, _⟩ := isUnreservedByte_ne b h1
    simpa using escDecode_cons_ne b rest h37 h43
  · subst h2
    simpa using escDecode_plus rest
  · have h := escDecode_hex (hexUpperDigit (b / 16)) (hexUpperDigit (b % 16)) rest
    simp only [List.cons_append, List.nil_append]
    rw [h, unhexUpper_hexUpperDigit, unhexUpper_hexUpperDigit]
    congr 1
    omega

theorem escDecode_queryEscape (s rest : GoStr) :
    escDecode (queryEscape s ++ rest) = s ++ escDecode rest := by
  induction s with
  | nil => rfl
  | cons b t ih => simp [queryEscape, escDecode_escapeByte, ih]

theorem queryEscape_leftInv (s : GoStr) : escDecode (queryEscape s) = s := by
  have h := escDecode_queryEscape s []
  rw [List.append_nil] at h
  rw [h]
  show s ++ escDecode [] = s
  rw [escDecode.eq_def]
  simp

theorem queryEscape_injective (a b : GoStr) (h : queryEscape a = queryEscape b) : a = b := by
  have h2 := congrArg escDecode h
  rwa [queryEscape_leftInv, queryEscape_leftInv] at h2

theorem escapeByte_mem_ne (b x : Nat) (hx : x ∈ escapeByte b) : x ≠ 38 ∧ x ≠ 61 := by
  unfold escapeByte at hx
  split_ifs at hx with h1 h2
  · simp at hx
    obtain ⟨_, _, _, h38, h61⟩ := isUnreservedByte_ne b h1
    omega
  · simp at hx
    omega
  · simp at hx
    rcases hx with rfl | rfl | rfl
    · omega
    · exact hexUpperDigit_ne (b / 16)
    · exact hexUpperDigit_ne (b % 16)

theorem queryEscape_mem_ne (s : GoStr) (x : Nat) (hx : x ∈ queryEscape s) :
    x ≠ 38 ∧ x ≠ 61 := by
  induction s with
  | nil => simp [queryEscape] at hx
  | cons b t ih =>
    simp only [queryEscape, List.mem_append] at hx
    rcases hx with hx | hx
    · exact escapeByte_mem_ne b x hx
    · exact ih hx

theorem splitOnByte_append_free (sep : Nat) (p l h : GoStr) (r : List GoStr)
    (hp : ∀ x ∈ p, x ≠ sep) (hl : splitOnByte sep l = h :: r) :
    splitOnByte sep (p ++ l) = (p ++ h) :: r := by
  induction p with
  | nil => simpa using hl
  | cons b p ih =>
    have hb : b ≠ sep := hp b (by simp)
    have hrec := ih (fun x hx => hp x (by simp [hx]))
    simp [splitOnByte, hb, hrec]

theorem splitOnByte_joinBytes (sep : Nat) (parts : List GoStr)
    (hfree : ∀ p ∈ parts, ∀ x ∈ p, x ≠ sep) (hne : parts ≠ []) :
    splitOnByte sep (joinBytes sep parts) = parts := by
  induction parts with
  | nil => exact absurd rfl hne
  | cons p ps ih =>
    cases ps with
    | nil =>
      have h := splitOnByte_append_free sep p [] [] []
        (hfree p (by simp)) rfl
      simpa [joinBytes] using h
    | cons q qs =>
      have hih : splitOnByte sep (joinBytes sep (q :: qs)) = q :: qs :=
        ih (fun x hx => hfree x (by simp [hx])) (by simp)
      have hsep : splitOnByte sep (sep :: joinBytes sep (q :: qs)) = [] :: q :: qs := by
        simp [splitOnByte, hih]
      have h := splitOnByte_append_free sep p (sep :: joinBytes sep (q :: qs)) [] (q :: qs)
        (hfree p (by simp)) hsep
      simpa [joinBytes] using h

theorem cutByte_append_free (k v : GoStr) (hk : ∀ x ∈ k, x ≠ 61) :
    cutByte 61 (k ++ 61 :: v) = (k, v) := by
  induction k with
  | nil => simp [cutByte]
  | cons b t ih =>
    have hb : b ≠ 61 := hk b (by simp)
    have hrec := ih (fun x hx => hk x (by simp [hx]))
    simp [cutByte, hb, hrec]

theorem filterMap_all_some (f : GoStr → GoStr) (parts : List GoStr)
    (hne : ∀ p ∈ parts, p ≠ []) :
    parts.filterMap (fun seg => if seg = [] then none else some (f seg)) = parts.map f := by
  induction parts with
  | nil => rfl
  | cons p ps ih =>
    have hp : p ≠ [] := hne p (by simp)
    simp [hp, ih (fun x hx => hne x (by simp [hx]))]

theorem encodeParts_map_key (vs : Values) (keys : List GoStr) :
    (encodeParts vs keys).map (fun p => (cutByte 61 p).1) = encodedKeyOccurrences vs keys := by
  induction keys with
  | nil => rfl
  | cons k t ih =>
    simp only [encodeParts, encodedKeyOccurrences, List.map_append, List.map_map, ih]
    congr 1
    apply List.map_congr_left
    intro v hv
    exact congrArg Prod.fst
      (cutByte_append_free (queryEscape k) (queryEscape v)
        (fun x hx => (queryEscape_mem_ne k x hx).2))

theorem encodeParts_parts_ne_nil (vs : Values) (keys : List GoStr) (p : GoStr)
    (hp : p ∈ encodeParts vs keys) : p ≠ [] := by
  induction keys with
  | nil => simp [encodeParts] at hp
  | cons k t ih =>
    simp only [encodeParts, List.mem_append, List.mem_map] at hp
    rcases hp with ⟨v, _, rfl⟩ | hp
    · simp
    · exact ih hp

theorem encodeParts_parts_free (vs : Values) (keys : List GoStr) (p : GoStr)
    (hp : p ∈ encodeParts vs keys) : ∀ x ∈ p, x ≠ 38 := by
  induction keys with
  | nil => simp [encodeParts] at hp
  | cons k t ih =>
    simp only [encodeParts, List.mem_append, List.mem_map] at hp
    rcases hp with ⟨v, _, rfl⟩ | hp
    · intro x hx
      simp only [List.mem_append, List.mem_cons] at hx
      rcases hx with hx | hx | hx
      · exact (queryEscape_mem_ne k x hx).1
      · omega
      · exact (queryEscape_mem_ne v x hx).1
    · exact ih hp

/-- `queryStringKeys` of an encoded `Values`: one escaped key per stored
value, in sorted key order. -/
theorem queryStringKeys_encode (vs : Values) :
    queryStringKeys (encode vs) =
      encodedKeyOccurrences vs (sortStrings (vs.map Prod.fst)) := by
  unfold queryStringKeys encode
  rcases hp : encodeParts vs (sortStrings (vs.map Prod.fst)) with _ | ⟨p, ps⟩
  · simp [joinBytes, splitOnByte]
    have := encodeParts_map_key vs (sortStrings (vs.map Prod.fst))
    rw [hp] at this
    exact this.symm ▸ rfl
  · rw [← hp]
    rw [splitOnByte_joinBytes 38 _
      (fun q hq => encodeParts_parts_free vs _ q hq) (by rw [hp]; simp)]
    rw [filterMap_all_some _ _ (fun q hq => encodeParts_parts_ne_nil vs _ q hq)]
    exact encodeParts_map_key vs _

theorem insertSorted_perm (x : GoStr) (l : List GoStr) :
    List.Perm (insertSorted x l) (x :: l) := by
  induction l with
  | nil => rfl
  | cons y t ih =>
    unfold insertSorted
    split
    · exact List.Perm.refl _
    · exact (ih.cons y).trans (List.Perm.swap x y t)

theorem sortStrings_perm (l : List GoStr) : List.Perm (sortStrings l) l := by
  induction l with
  | nil => rfl
  | cons x t ih => exact (insertSorted_perm x (sortStrings t)).trans (ih.cons x)

theorem valsAll_length_le_one (vs : Values) (h : SingleValued vs) (k : GoStr) :
    (valsAll k vs).length ≤ 1 := by
  induction vs with
  | nil => simp [valsAll]
  | cons p t ih =>
    obtain ⟨k', vl⟩ := p
    simp only [valsAll]
    split
    · exact h (k', vl) (by simp)
    · exact ih (fun q hq => h q (by simp [hq]))

theorem encodedKeyOccurrences_mem (vs : Values) (keys : List GoStr) (x : GoStr)
    (hx : x ∈ encodedKeyOccurrences vs keys) : ∃ k, k ∈ keys ∧ x = queryEscape k := by
  induction keys with
  | nil => simp [encodedKeyOccurrences] at hx
  | cons k t ih =>
    simp only [encodedKeyOccurrences, List.mem_append, List.mem_map] at hx
    rcases hx with ⟨v, _, rfl⟩ | hx
    · exact ⟨k, by simp, rfl⟩
    · obtain ⟨k', hk', rfl⟩ := ih hx
      exact ⟨k', by simp [hk'], rfl⟩

theorem encodedKeyOccurrences_nodup (vs : Values) (keys : List GoStr)
    (hsv : ∀ k, (valsAll k vs).length ≤ 1) (hnd : keys.Nodup) :
    (encodedKeyOccurrences vs keys).Nodup := by
  induction keys with
  | nil => simp [encodedKeyOccurrences]
  | cons k t ih =>
    simp only [encodedKeyOccurrences]
    obtain ⟨hknot, hndt⟩ := List.nodup_cons.mp hnd
    have iht := ih hndt
    rcases hv : valsAll k vs with _ | ⟨v, vs'⟩
    · simpa using iht
    · have hlen := hsv k
      rw [hv] at hlen
      have : vs' = [] := by
        cases vs' with
        | nil => rfl
        | cons a b => simp at hlen
      subst this
      simp only [List.map_cons, List.map_nil, List.singleton_append, List.nodup_cons]
      refine ⟨fun hmem => ?_, iht⟩
      obtain ⟨k', hk', heq⟩ := encodedKeyOccurrences_mem vs t _ hmem
      exact hknot (queryEscape_injective k k' heq ▸ hk')

theorem valsAdd_keys_mem (k v : GoStr) (vs : Values) (x : GoStr) :
    x ∈ (valsAdd k v vs).map Prod.fst ↔ x ∈ vs.map Prod.fst ∨ x = k := by
  induction vs with
  | nil => simp [valsAdd]
  | cons p t ih =>
    obtain ⟨k', vl⟩ := p
    simp only [valsAdd]
    split
    · rename_i hk
      subst hk
      simp
      tauto
    · simp [ih]
      tauto

theorem valsAdd_keys_nodup (k v : GoStr) (vs : Values)
    (h : (vs.map Prod.fst).Nodup) : ((valsAdd k v vs).map Prod.fst).Nodup := by
  induction vs with
  | nil => simp [valsAdd]
  | cons p t ih =>
    obtain ⟨k', vl⟩ := p
    simp only [List.map_cons, List.nodup_cons] at h
    simp only [valsAdd]
    split
    · simpa [List.nodup_cons] using h
    · rename_i hk
      simp only [List.map_cons, List.nodup_cons]
      refine ⟨fun hmem => ?_, ih h.2⟩
      rcases (valsAdd_keys_mem k v t k').mp hmem with hmem | rfl
      · exact h.1 hmem
      · exact hk rfl

theorem valsSet_keys_mem (k v : GoStr) (vs : Values) (x : GoStr) :
    x ∈ (valsSet k v vs).map Prod.fst ↔ x ∈ vs.map Prod.fst ∨ x = k := by
  induction vs with
  | nil => simp [valsSet]
  | cons p t ih =>
    obtain ⟨k', vl⟩ := p
    simp only [valsSet]
    split
    · rename_i hk
      subst hk
      simp
      tauto
    · simp [ih]
      tauto

theorem valsSet_keys_nodup (k v : GoStr) (vs : Values)
    (h : (vs.map Prod.fst).Nodup) : ((valsSet k v vs).map Prod.fst).Nodup := by
  induction vs with
  | nil => simp [valsSet]
  | cons p t ih =>
    obtain ⟨k', vl⟩ := p
    simp only [List.map_cons, List.nodup_cons] at h
    simp only [valsSet]
    split
    · rename_i hk
      subst hk
      simp only [List.map_cons, List.nodup_cons]
      exact h
    · rename_i hk
      simp only [List.map_cons, List.nodup_cons]
      refine ⟨fun hmem => ?_, ih h.2⟩
      rcases (valsSet_keys_mem k v t k').mp hmem with hmem | rfl
      · exact h.1 hmem
      · exact hk rfl

theorem valsSet_singleValued (k v : GoStr) (vs : Values) (h : SingleValued vs) :
    SingleValued (valsSet k v vs) := by
  induction vs with
  | nil =>
    intro p hp
    simp [valsSet] at hp
    simp [hp]
  | cons q t ih =>
    obtain ⟨k', vl⟩ := q
    intro p hp
    simp only [valsSet] at hp
    split at hp
    · rcases List.mem_cons.mp hp with rfl | hp
      · simp
      · exact h p (by simp [hp])
    · rcases List.mem_cons.mp hp with h1 | hp
      · rw [h1]
        exact h (k', vl) (by simp)
      · exact ih (fun q hq => h q (by simp [hq])) p hp

theorem parseQuerySegs_keys_nodup (segs : List GoStr) (vs : Values)
    (h : (vs.map Prod.fst).Nodup) : ((parseQuerySegs segs vs).map Prod.fst).Nodup := by
  induction segs generalizing vs with
  | nil => exact h
  | cons seg rest ih =>
    simp only [parseQuerySegs]
    split_ifs
    · exact ih vs h
    · exact ih vs h
    · split
      · exact ih _ (valsAdd_keys_nodup _ _ _ h)
      · exact ih vs h

theorem parseQuery_keys_nodup (raw : GoStr) : ((parseQuery raw).map Prod.fst).Nodup :=
  parseQuerySegs_keys_nodup _ [] (by simp)

theorem runSetter_values_keys_nodup (q : QueryBuilder) (op : SetterOp)
    (h : (q.values.map Prod.fst).Nodup) :
    (((runSetter q op).values).map Prod.fst).Nodup := by
  cases op with
  | bool k v =>
    cases v with
    | none => exact h
    | some b => exact valsSet_keys_nodup _ _ _ h
  | str k v =>
    simp only [runSetter, setString]
    split
    · exact valsSet_keys_nodup _ _ _ h
    · exact h
  | strs k v =>
    simp only [runSetter, setStrings]
    split
    · exact valsSet_keys_nodup _ _ _ h
    · exact h

theorem runSetters_values_keys_nodup (q : QueryBuilder) (ops : List SetterOp)
    (h : (q.values.map Prod.fst).Nodup) :
    (((runSetters q ops).values).map Prod.fst).Nodup := by
  induction ops generalizing q with
  | nil => exact h
  | cons op t ih =>
    simp only [runSetters, List.foldl_cons] at *
    exact ih _ (runSetter_values_keys_nodup q op h)

theorem runSetter_singleValued (q : QueryBuilder) (op : SetterOp)
    (h : SingleValued q.values) : SingleValued (runSetter q op).values := by
  cases op with
  | bool k v =>
    cases v with
    | none => exact h
    | some b => exact valsSet_singleValued _ _ _ h
  | str k v =>
    simp only [runSetter, setString]
    split
    · exact valsSet_singleValued _ _ _ h
    · exact h
  | strs k v =>
    simp only [runSetter, setStrings]
    split
    · exact valsSet_singleValued _ _ _ h
    · exact h

theorem runSetters_singleValued (q : QueryBuilder) (ops : List SetterOp)
    (h : SingleValued q.values) : SingleValued (runSetters q ops).values := by
  induction ops generalizing q with
  | nil => exact h
  | cons op t ih =>
    simp only [runSetters, List.foldl_cons] at *
    exact ih _ (runSetter_singleValued q op h)

theorem queryEscape_notMem_encode (vs : Values) (k : GoStr)
    (hk : k ∉ vs.map Prod.fst) : queryEscape k ∉ queryStringKeys (encode vs) := by
  rw [queryStringKeys_encode]
  intro hmem
  obtain ⟨k', hk', heq⟩ := encodedKeyOccurrences_mem _ _ _ hmem
  have hkk : k = k' := queryEscape_injective _ _ heq
  subst hkk
  exact hk (((sortStrings_perm _).mem_iff).mp hk')

/-- C7 (amended): on a builder state reached by any chain of setter calls
over a request whose original query string holds at most one value per
key, invoking `apply()` twice with no intervening setter yields the same
request query string as invoking it once, and that query string contains
no duplicated keys. -/
theorem apply_idempotent_and_no_duplicate_keys (req : Request) (ops : List SetterOp)
    (h : SingleValued (parseQuery req.rawQuery)) :
    (apply (apply (runSetters (buildQuery req) ops))).req.rawQuery =
      (apply (runSetters (buildQuery req) ops)).req.rawQuery ∧
    (queryStringKeys (apply (runSetters (buildQuery req) ops)).req.rawQuery).Nodup := by
  refine ⟨rfl, ?_⟩
  show (queryStringKeys (encode (runSetters (buildQuery req) ops).values)).Nodup
  rw [queryStringKeys_encode]
  apply encodedKeyOccurrences_nodup
  · exact valsAll_length_le_one _ (runSetters_singleValued _ ops h)
  · exact ((sortStrings_perm _).nodup_iff).mpr
      (runSetters_values_keys_nodup _ ops (parseQuery_keys_nodup req.rawQuery))

/-- C7 (counterexample): on a request whose query string already carries
a duplicated key (`a=1&a=2`), `apply()` writes a query string that still
contains a duplicated key — with no setter call at all. -/
theorem apply_duplicate_keys_counterexample :
    ¬ (queryStringKeys
        (apply (runSetters (buildQuery { rawQuery := ascii "a=1&a=2" }) [])).req.rawQuery).Nodup := by
  decide

/-- Witness for C7's amended theorem at a concrete request and chain. -/
theorem apply_idempotent_witness :
    SingleValued (parseQuery (ascii "page=1")) ∧
    ((apply (apply (runSetters (buildQuery { rawQuery := ascii "page=1" })
        [.str (ascii "lang") (ascii "en")]))).req.rawQuery =
      (apply (runSetters (buildQuery { rawQuery := ascii "page=1" })
        [.str (ascii "lang") (ascii "en")])).req.rawQuery ∧
    (queryStringKeys (apply (runSetters (buildQuery { rawQuery := ascii "page=1" })
        [.str (ascii "lang") (ascii "en")])).req.rawQuery).Nodup) :=
  ⟨by decide, apply_idempotent_and_no_duplicate_keys { rawQuery := ascii "page=1" }
    [.str (ascii "lang") (ascii "en")] (by decide)⟩

/-- C8 (amended): on any reached builder state whose accumulated values
do not yet hold the target key, `setBool` with a nil pointer, `setString`
with a whitespace-only value and `setStrings` with an empty list each
leave the target key absent from the query string written by `apply()`. -/
theorem degenerate_setters_leave_key_absent (req : Request) (ops : List SetterOp) (k v : GoStr)
    (hv : goTrimSpace v = [])
    (hk : k ∉ ((runSetters (buildQuery req) ops).values.map Prod.fst)) :
    queryEscape k ∉ queryStringKeys
      (apply (setBool (runSetters (buildQuery req) ops) k none)).req.rawQuery ∧
    queryEscape k ∉ queryStringKeys
      (apply (setString (runSetters (buildQuery req) ops) k v)).req.rawQuery ∧
    queryEscape k ∉ queryStringKeys
      (apply (setStrings (runSetters (buildQuery req) ops) k [])).req.rawQuery := by
  have hstr : setString (runSetters (buildQuery req) ops) k v =
      runSetters (buildQuery req) ops := by
    simp [setString, hv]
  refine ⟨?_, ?_, ?_⟩
  · exact queryEscape_notMem_encode _ _ hk
  · rw [hstr]
    exact queryEscape_notMem_encode _ _ hk
  · exact queryEscape_notMem_encode _ _ hk

/-- C8 (counterexample): when the request's original query string already
carries the key (`k=v`), `setString` of that key with a whitespace-only
value leaves the key PRESENT in the query string written by `apply()`. -/
theorem setString_whitespace_key_present_counterexample :
    goTrimSpace (ascii " ") = [] ∧
    ascii "k" ∈ queryStringKeys
      (apply (setString (buildQuery { rawQuery := ascii "k=v" }) (ascii "k")
        (ascii " "))).req.rawQuery := by
  decide

/-- Witness for C8's amended theorem at a concrete request and key. -/
theorem degenerate_setters_witness :
    (goTrimSpace (ascii "  ") = [] ∧
      ascii "jitEnabled" ∉
        ((runSetters (buildQuery { rawQuery := [] }) []).values.map Prod.fst)) ∧
    (queryEscape (ascii "jitEnabled") ∉ queryStringKeys
      (apply (setBool (runSetters (buildQuery { rawQuery := [] }) [])
        (ascii "jitEnabled") none)).req.rawQuery ∧
    queryEscape (ascii "jitEnabled") ∉ queryStringKeys
      (apply (setString (runSetters (buildQuery { rawQuery := [] }) [])
        (ascii "jitEnabled") (ascii "  "))).req.rawQuery ∧
    queryEscape (ascii "jitEnabled") ∉ queryStringKeys
      (apply (setStrings (runSetters (buildQuery { rawQuery := [] }) [])
        (ascii "jitEnabled") [])).req.rawQuery) :=
  ⟨⟨by decide, by decide⟩,
    degenerate_setters_leave_key_absent { rawQuery := [] } [] (ascii "jitEnabled")
      (ascii "  ") (by decide) (by decide)⟩

end BunnyStream
